import Mathlib

/-!
# EdgeGuard — shallow embedding and verification

A shallow embedding of the EdgeGuard device-integrity watchdog (Go, package
main): hardware-fact collection, salted SHA-256 fingerprinting, identity
persistence, and the drift-monitoring loop.  External effects (HTTP, the
filesystem, the random source) are modelled as explicit world/state values;
the pure logic (JSON normalisation, serialization, hashing, the loop body) is
transcribed from the source.
-/

set_option maxRecDepth 100000

namespace EdgeGuard

/-! ## SHA-256 (models Go crypto/sha256.Sum256)

Machine words are `Nat` reduced modulo 2^32; bytes are `Nat` below 256.
-/

/-- Addition of two 32-bit words modulo 2^32. -/
def add32 (a b : Nat) : Nat := (a + b) % 4294967296

/-- Right-rotation of a 32-bit word by `n` bits (0 < n < 32, input < 2^32). -/
def rotr (n x : Nat) : Nat := x / 2 ^ n + x % 2 ^ n * 2 ^ (32 - n)

/-- Bitwise complement within 32 bits (input < 2^32). -/
def not32 (x : Nat) : Nat := 4294967295 - x

/-- SHA-256 choice function. -/
def ch32 (x y z : Nat) : Nat := (x &&& y) ^^^ (not32 x &&& z)

/-- SHA-256 majority function. -/
def maj32 (x y z : Nat) : Nat := (x &&& y) ^^^ (x &&& z) ^^^ (y &&& z)

/-- SHA-256 big sigma-0. -/
def bsig0 (x : Nat) : Nat := rotr 2 x ^^^ rotr 13 x ^^^ rotr 22 x

/-- SHA-256 big sigma-1. -/
def bsig1 (x : Nat) : Nat := rotr 6 x ^^^ rotr 11 x ^^^ rotr 25 x

/-- SHA-256 small sigma-0. -/
def ssig0 (x : Nat) : Nat := rotr 7 x ^^^ rotr 18 x ^^^ x / 2 ^ 3

/-- SHA-256 small sigma-1. -/
def ssig1 (x : Nat) : Nat := rotr 17 x ^^^ rotr 19 x ^^^ x / 2 ^ 10

/-- The 64 SHA-256 round constants. -/
def kConsts : List Nat :=
  [1116352408, 1899447441, 3049323471, 3921009573, 961987163, 1508970993,
   2453635748, 2870763221, 3624381080, 310598401, 607225278, 1426881987,
   1925078388, 2162078206, 2614888103, 3248222580, 3835390401, 4022224774,
   264347078, 604807628, 770255983, 1249150122, 1555081692, 1996064986,
   2554220882, 2821834349, 2952996808, 3210313671, 3336571891, 3584528711,
   113926993, 338241895, 666307205, 773529912, 1294757372, 1396182291,
   1695183700, 1986661051, 2177026350, 2456956037, 2730485921, 2820302411,
   3259730800, 3345764771, 3516065817, 3600352804, 4094571909, 275423344,
   430227734, 506948616, 659060556, 883997877, 958139571, 1322822218,
   1537002063, 1747873779, 1955562222, 2024104815, 2227730452, 2361852424,
   2428436474, 2756734187, 3204031479, 3329325298]

/-- Big-endian packing of bytes into 32-bit words (length a multiple of 4). -/
def bytesToWords : List Nat → List Nat
  | b0 :: b1 :: b2 :: b3 :: rest =>
      (((b0 * 256 + b1) * 256 + b2) * 256 + b3) :: bytesToWords rest
  | _ => []

/-- Big-endian bytes of one 32-bit word. -/
def wordBytes (w : Nat) : List Nat :=
  [w / 16777216 % 256, w / 65536 % 256, w / 256 % 256, w % 256]

/-- The 8 big-endian bytes of the 64-bit message bit-length. -/
def lenBytes (n : Nat) : List Nat :=
  [n / 2 ^ 56 % 256, n / 2 ^ 48 % 256, n / 2 ^ 40 % 256, n / 2 ^ 32 % 256,
   n / 2 ^ 24 % 256, n / 2 ^ 16 % 256, n / 2 ^ 8 % 256, n % 256]

/-- SHA-256 padding: append 0x80, zeros to 56 mod 64, then the bit length. -/
def sha256pad (msg : List Nat) : List Nat :=
  msg ++ 128 :: List.replicate ((64 - (msg.length + 9) % 64) % 64) 0
      ++ lenBytes (8 * msg.length)

/-- Split off the first 16 words of a block stream. -/
def split16 (ws : List Nat) : List Nat × List Nat :=
  match ws with
  | w0 :: w1 :: w2 :: w3 :: w4 :: w5 :: w6 :: w7 :: w8 :: w9 :: w10 :: w11 ::
    w12 :: w13 :: w14 :: w15 :: rest =>
      ([w0, w1, w2, w3, w4, w5, w6, w7, w8, w9, w10, w11, w12, w13, w14, w15],
       rest)
  | _ => (ws, [])

/-- Group a word stream into 16-word blocks (fuel-driven, fuel ≥ length). -/
def toBlocksF : Nat → List Nat → List (List Nat)
  | 0, _ => []
  | _, [] => []
  | fuel + 1, ws =>
      let p := split16 ws
      p.1 :: toBlocksF fuel p.2

/-- Group a padded word stream into its 16-word blocks. -/
def toBlocks (ws : List Nat) : List (List Nat) := toBlocksF ws.length ws

/-- Message-schedule extension; `acc` holds the words produced so far, newest
first. -/
def extendW : Nat → List Nat → List Nat
  | 0, acc => acc
  | n + 1, acc =>
      extendW n
        (add32 (add32 (ssig1 (acc.getD 1 0)) (acc.getD 6 0))
           (add32 (ssig0 (acc.getD 14 0)) (acc.getD 15 0)) :: acc)

/-- The 64-entry message schedule of one 16-word block. -/
def schedule (blk : List Nat) : List Nat := (extendW 48 blk.reverse).reverse

/-- The eight 32-bit working variables of the SHA-256 state. -/
structure H8 where
  a : Nat
  b : Nat
  c : Nat
  d : Nat
  e : Nat
  f : Nat
  g : Nat
  h : Nat

/-- One SHA-256 round with round constant `k` and schedule word `w`. -/
def roundStep (st : H8) (k w : Nat) : H8 :=
  let t1 := add32 (add32 (add32 st.h (bsig1 st.e)) (add32 (ch32 st.e st.f st.g) k)) w
  let t2 := add32 (bsig0 st.a) (maj32 st.a st.b st.c)
  ⟨add32 t1 t2, st.a, st.b, st.c, add32 st.d t1, st.e, st.f, st.g⟩

/-- Compress one 16-word block into the running hash state. -/
def compress (st0 : H8) (blk : List Nat) : H8 :=
  let fin := (List.zip kConsts (schedule blk)).foldl
    (fun st p => roundStep st p.1 p.2) st0
  ⟨add32 st0.a fin.a, add32 st0.b fin.b, add32 st0.c fin.c, add32 st0.d fin.d,
   add32 st0.e fin.e, add32 st0.f fin.f, add32 st0.g fin.g, add32 st0.h fin.h⟩

/-- The SHA-256 initial hash state. -/
def initH : H8 :=
  ⟨1779033703, 3144134277, 1013904242, 2773480762,
   1359893119, 2600822924, 528734635, 1541459225⟩

/-- SHA-256 of a byte sequence, as its 32 digest bytes. -/
def sha256 (msg : List Nat) : List Nat :=
  let fin := (toBlocks (bytesToWords (sha256pad msg))).foldl compress initH
  wordBytes fin.a ++ wordBytes fin.b ++ wordBytes fin.c ++ wordBytes fin.d ++
    wordBytes fin.e ++ wordBytes fin.f ++ wordBytes fin.g ++ wordBytes fin.h

/-- Lowercase hexadecimal digit for `n < 16`. -/
def hexDigit (n : Nat) : Char :=
  if n < 10 then Char.ofNat (48 + n) else Char.ofNat (87 + n)

/-- Lowercase-hex encoding of a byte list (Go fmt %x on a byte array). -/
def toHex (bs : List Nat) : String :=
  ⟨bs.foldr (fun b acc => hexDigit (b / 16 % 16) :: hexDigit (b % 16) :: acc) []⟩

example : toHex (sha256 []) =
    "e3b0c44298fc1c149afbf4c8996fb92427ae41e4649b934ca495991b7852b855" := by
  decide

example : toHex (sha256 [97, 98, 99]) =
    "ba7816bf8f01cfea414140de5dae2223b00361a396177a9cb410ff61f20015ad" := by
  decide

/-! ## JSON values (Go interface{} after json.Unmarshal)

`Json.num` carries the decimal literal Go would print for the number, so the
serializer below is a function of the value alone.  Objects carry their
entries as a sequence; the Go map is unordered and `json.Marshal` emits map
keys sorted, which `sortJson` models.
-/

mutual
inductive Json where
  | null : Json
  | bool (b : Bool) : Json
  | num (lit : String) : Json
  | str (s : String) : Json
  | arr (xs : JsonList) : Json
  | obj (kvs : JsonObj) : Json
inductive JsonList where
  | nil : JsonList
  | cons (hd : Json) (tl : JsonList) : JsonList
inductive JsonObj where
  | nil : JsonObj
  | cons (k : String) (v : Json) (tl : JsonObj) : JsonObj
end

/-- String escaping of Go encoding/json (default HTML escaping on). -/
def escChar (c : Char) : String :=
  if c = '"' then "\\\""
  else if c = '\\' then "\\\\"
  else if c = '\n' then "\\n"
  else if c = '\r' then "\\r"
  else if c = '\t' then "\\t"
  else if c.toNat < 32 then
    "\\u00" ++ ⟨[hexDigit (c.toNat / 16), hexDigit (c.toNat % 16)]⟩
  else if c = '<' then "\\u003c"
  else if c = '>' then "\\u003e"
  else if c = '&' then "\\u0026"
  else if c.toNat = 8232 then "\\u2028"
  else if c.toNat = 8233 then "\\u2029"
  else String.singleton c

/-- A JSON string literal: quoted, escaped. -/
def quoteStr (s : String) : String :=
  "\"" ++ String.join (s.data.map escChar) ++ "\""

/-- Insert an entry into an object sequence sorted by key. -/
def objInsert (k : String) (v : Json) : JsonObj → JsonObj
  | .nil => .cons k v .nil
  | .cons k' v' tl =>
      if k ≤ k' then .cons k v (.cons k' v' tl)
      else .cons k' v' (objInsert k v tl)

mutual
/-- Sort the entries of every object by key, at all depths (Go map-key order). -/
def sortJson : Json → Json
  | .null => .null
  | .bool b => .bool b
  | .num lit => .num lit
  | .str s => .str s
  | .arr xs => .arr (sortList xs)
  | .obj kvs => .obj (sortObj kvs)
termination_by structural j => j
def sortList : JsonList → JsonList
  | .nil => .nil
  | .cons x tl => .cons (sortJson x) (sortList tl)
termination_by structural l => l
def sortObj : JsonObj → JsonObj
  | .nil => .nil
  | .cons k v tl => objInsert k (sortJson v) (sortObj tl)
termination_by structural o => o
end

mutual
/-- Compact serialization of a (key-sorted) JSON value, as Go emits it. -/
def serJson : Json → String
  | .null => "null"
  | .bool b => cond b "true" "false"
  | .num lit => lit
  | .str s => quoteStr s
  | .arr xs => "[" ++ serList xs ++ "]"
  | .obj kvs => "\x7b" ++ serObj kvs ++ "\x7d"
def serList : JsonList → String
  | .nil => ""
  | .cons x .nil => serJson x
  | .cons x (.cons y tl) => serJson x ++ "," ++ serList (.cons y tl)
def serObj : JsonObj → String
  | .nil => ""
  | .cons k v .nil => quoteStr k ++ ":" ++ serJson v
  | .cons k v (.cons k' v' tl) =>
      quoteStr k ++ ":" ++ serJson v ++ "," ++ serObj (.cons k' v' tl)
end

/-- UTF-8 bytes of one character. -/
def utf8Char (c : Char) : List Nat :=
  let n := c.toNat
  if n < 128 then [n]
  else if n < 2048 then [192 + n / 64, 128 + n % 64]
  else if n < 65536 then [224 + n / 4096, 128 + n / 64 % 64, 128 + n % 64]
  else [240 + n / 262144, 128 + n / 4096 % 64, 128 + n / 64 % 64, 128 + n % 64]

/-- UTF-8 bytes of a string (Go []byte(s)). -/
def strBytes (s : String) : List Nat :=
  s.data.foldr (fun c acc => utf8Char c ++ acc) []

/-- Whitespace as trimmed by Go bytes.TrimSpace. -/
def isSpaceChar (c : Char) : Bool :=
  c = ' ' || c = '\t' || c = '\n' || c.toNat = 11 || c.toNat = 12 || c = '\r'

/-- bytes.TrimSpace (Go): drop leading and trailing whitespace. -/
def trimSpace (s : String) : String :=
  ⟨((s.data.dropWhile isSpaceChar).reverse.dropWhile isSpaceChar).reverse⟩

/-! ## Hardware data (source: HardwareData struct) -/

/-- The five-category hardware snapshot; each category is a JSON object
(map[string]interface\x7b\x7d in the source). -/
structure HardwareData where
  lscpu : JsonObj
  lspci : JsonObj
  lsusb : JsonObj
  lshw : JsonObj
  cpuInfo : JsonObj

/-- Marshal one category map: keys sorted at all depths, compact form. -/
def serCategory (kvs : JsonObj) : String := serJson (sortJson (.obj kvs))

/-- json.Marshal of the HardwareData struct: fields in declaration order
under their json tags (lscpu, lspci, lsusb, lshw, cpuinfo). -/
def jsonMarshal (d : HardwareData) : String :=
  "\x7b\"lscpu\":" ++ serCategory d.lscpu ++
  ",\"lspci\":" ++ serCategory d.lspci ++
  ",\"lsusb\":" ++ serCategory d.lsusb ++
  ",\"lshw\":" ++ serCategory d.lshw ++
  ",\"cpuinfo\":" ++ serCategory d.cpuInfo ++ "\x7d"

/-- parseToMap (source): a parsed object is used verbatim; any other JSON
value is wrapped as an object with single key "data". -/
def parseToMap (data : Json) : JsonObj :=
  match data with
  | .obj resultMap => resultMap
  | _ => .cons "data" data .nil

/-! ## Identity store, filesystem and external world -/

/-- Source constant saltFile. -/
def saltFile : String := "id/salt-key"

/-- Source constant hwidFile. -/
def hwidFile : String := "id/hw-id"

/-- Source constant defaultPort. -/
def defaultPort : String := "54331"

/-- Outcome of reading one file from the outside world. -/
inductive ReadOutcome where
  | absent : ReadOutcome
  | ioError (msg : String) : ReadOutcome
  | content (s : String) : ReadOutcome

/-- The local filesystem: per-path read outcomes and a per-path write-failure
flag (models ioutil.ReadFile / ioutil.WriteFile). -/
structure FileSys where
  read : String → ReadOutcome
  writeFails : String → Bool

/-- The filesystem after a successful whole-file write. -/
def fsWrite (fs : FileSys) (filename data : String) : FileSys :=
  { read := fun p => if p = filename then .content data else fs.read p,
    writeFails := fs.writeFails }

/-- loadFromFile (source): ReadFile, then trim surrounding whitespace.  A
missing file surfaces as the ReadFile error, exactly as in Go. -/
def loadFromFile (fs : FileSys) (filename : String) : Except String String :=
  match fs.read filename with
  | .absent => .error ("open " ++ filename ++ ": no such file or directory")
  | .ioError msg => .error msg
  | .content data => .ok (trimSpace data)

/-- saveToFile (source): whole-value overwrite via ioutil.WriteFile. -/
def saveToFile (fs : FileSys) (filename data : String) : Except String FileSys :=
  if fs.writeFails filename then .error ("write " ++ filename ++ ": i/o error")
  else .ok (fsWrite fs filename data)

/-- The random source for one generateSalt call: the base64 encoding of the
16 bytes crypto/rand would produce, or the rand failure. -/
structure RandSource where
  outcome : Except String String

/-- generateSalt (source): 16 random bytes, base64-encoded; rand failure is
wrapped. -/
def generateSalt (r : RandSource) : Except String String :=
  match r.outcome with
  | .error e => .error ("failed to generate salt: " ++ e)
  | .ok salt => .ok salt

/-- calculateSaltedHash (source): marshal the snapshot, load the persisted
salt — on any load error generate and persist a fresh one — then hash
salt bytes followed by the JSON bytes and hex-encode.  (json.Marshal cannot
fail on HardwareData, so the serialization error branch is unreachable and
not modelled.) -/
def calculateSaltedHash (fs : FileSys) (r : RandSource) (data : HardwareData) :
    Except String (String × FileSys) :=
  let jsonData := strBytes (jsonMarshal data)
  match loadFromFile fs saltFile with
  | .ok salt => .ok (toHex (sha256 (strBytes salt ++ jsonData)), fs)
  | .error _ =>
    match generateSalt r with
    | .error e => .error ("failed to generate salt: " ++ e)
    | .ok salt =>
      match saveToFile fs saltFile salt with
      | .error e => .error ("failed to save salt to file: " ++ e)
      | .ok fs' => .ok (toHex (sha256 (strBytes salt ++ jsonData)), fs')

/-- The fingerprint exactly as the spec words it: the lowercase-hex encoding
of SHA-256 of the salt bytes followed by the canonical serialization of the
snapshot. -/
def fingerprintSpec (salt : String) (d : HardwareData) : String :=
  toHex (sha256 (strBytes salt ++ strBytes (jsonMarshal d)))

/-- loadAuthToken (source): read the local-api record fresh, trim it. -/
def loadAuthToken (tokenFile : ReadOutcome) : Except String String :=
  match tokenFile with
  | .absent =>
      .error "failed to read local-api file: open local-api: no such file or directory"
  | .ioError e => .error ("failed to read local-api file: " ++ e)
  | .content s => .ok (trimSpace s)

/-! ## Hardware collection -/

/-- Outcome of one HTTP GET against the facts service: transport failure,
body-read failure, or a body whose JSON parse attempt is given. -/
inductive FetchOutcome where
  | netError (e : String) : FetchOutcome
  | readError (e : String) : FetchOutcome
  | body (parsed : Except String Json) : FetchOutcome

/-- The facts service as seen this cycle: a response per URL. -/
structure Network where
  get : String → FetchOutcome

/-- fetchEndpoint (source): GET, read body, json.Unmarshal; each failure is
wrapped with the URL it came from. -/
def fetchEndpoint (net : Network) (url : String) : Except String Json :=
  match net.get url with
  | .netError e => .error ("failed to fetch " ++ url ++ ": " ++ e)
  | .readError e => .error ("failed to read response from " ++ url ++ ": " ++ e)
  | .body (.error e) => .error ("failed to parse JSON from " ++ url ++ ": " ++ e)
  | .body (.ok data) => .ok data

/-- The URL of one facts category (source: fmt.Sprintf in collectHardwareData). -/
def urlFor (baseURL endpoint : String) : String :=
  "http://" ++ baseURL ++ ":" ++ defaultPort ++ "/hal/hwc/" ++ endpoint

/-- collectHardwareData (source): the loop over the five endpoints in order,
unrolled; the first failing fetch aborts the whole collection. -/
def collectHardwareData (net : Network) (baseURL : String) :
    Except String HardwareData := do
  let lscpu ← fetchEndpoint net (urlFor baseURL "lscpu")
  let lspci ← fetchEndpoint net (urlFor baseURL "lspci")
  let lsusb ← fetchEndpoint net (urlFor baseURL "lsusb")
  let lshw ← fetchEndpoint net (urlFor baseURL "lshw")
  let cpuinfo ← fetchEndpoint net (urlFor baseURL "proc/cpuinfo")
  .ok ⟨parseToMap lscpu, parseToMap lspci, parseToMap lsusb, parseToMap lshw,
       parseToMap cpuinfo⟩

/-- deprovisionDevice (source): one DELETE with the Authorization header; the
transport outcome (error, or a status code) comes from the world.  Success is
exactly status 200. -/
def deprovisionDevice (resp : Except String Nat) : Except String Unit :=
  match resp with
  | .error e => .error ("failed to send DELETE request: " ++ e)
  | .ok status =>
      if status ≠ 200 then .error ("unexpected response status: " ++ toString status)
      else .ok ()

/-! ## The monitoring loop (source: main) -/

/-- Everything the outside world supplies to one polling cycle. -/
structure World where
  net : Network
  rand : RandSource
  tokenFile : ReadOutcome
  deprovisionResp : String → Except String Nat

/-- The loop state: the in-memory baseline (empty string = none, the Go zero
value) and the filesystem. -/
structure LoopState where
  initialHdID : String
  fs : FileSys

/-- Observable steps of one cycle: evaluating the drift comparison, invoking
the deprovision call, and sleeping before the next tick. -/
inductive Event where
  | compare (computed baseline : String) : Event
  | deprovisionCall (token : String) : Event
  | sleep (seconds : Nat) : Event
deriving DecidableEq

/-- Result of one cycle: the new state, the observable events of the cycle, and
whether the loop breaks (process termination). -/
structure CycleResult where
  state : LoopState
  events : List Event
  exits : Bool

/-- One iteration of the main for-loop.  Error paths `continue` (no sleep
event); the baseline-establishment branch `continue`s too; only the
"unchanged" outcome reaches the sleep; only deprovision success breaks. -/
def cycle (period : Nat) (halURL : String) (w : World) (st : LoopState) :
    CycleResult :=
  match collectHardwareData w.net halURL with
  | .error _ => ⟨st, [], false⟩
  | .ok hardwareData =>
    match calculateSaltedHash st.fs w.rand hardwareData with
    | .error _ => ⟨st, [], false⟩
    | .ok (hwID, fs1) =>
      if st.initialHdID = "" then
        match saveToFile fs1 hwidFile hwID with
        | .error _ => ⟨⟨hwID, fs1⟩, [], false⟩
        | .ok fs2 => ⟨⟨hwID, fs2⟩, [], false⟩
      else if hwID ≠ st.initialHdID then
        match loadAuthToken w.tokenFile with
        | .error _ =>
            ⟨⟨st.initialHdID, fs1⟩, [.compare hwID st.initialHdID], false⟩
        | .ok authToken =>
          match deprovisionDevice (w.deprovisionResp authToken) with
          | .error _ =>
              ⟨⟨st.initialHdID, fs1⟩,
               [.compare hwID st.initialHdID, .deprovisionCall authToken], false⟩
          | .ok _ =>
              ⟨⟨st.initialHdID, fs1⟩,
               [.compare hwID st.initialHdID, .deprovisionCall authToken], true⟩
      else
        ⟨⟨st.initialHdID, fs1⟩,
         [.compare hwID st.initialHdID, .sleep period], false⟩

/-- Startup of main: the baseline is read once from the hwid record; a read
error leaves it at the zero value (baseline treated as absent). -/
def initMain (fs : FileSys) : LoopState :=
  match loadFromFile fs hwidFile with
  | .ok s => ⟨s, fs⟩
  | .error _ => ⟨"", fs⟩

/-- `n` iterations of the loop with per-cycle worlds `ws`; the Bool records
that the loop has broken (the process has terminated). -/
def runAux (period : Nat) (halURL : String) (ws : Nat → World)
    (st : LoopState) : Nat → LoopState × Bool
  | 0 => (st, false)
  | n + 1 =>
    let p := runAux period halURL ws st n
    if p.2 then p
    else
      let c := cycle period halURL (ws n) p.1
      (c.state, c.exits)

/-! ## Concrete fixtures for witnesses and counterexamples -/

/-- An empty identity store with reliable writes. -/
def fsEmpty : FileSys := ⟨fun _ => .absent, fun _ => false⟩

/-- A store holding the salt "abc" and nothing else; writes reliable. -/
def fsSalted : FileSys :=
  ⟨fun p => if p = saltFile then .content "abc" else .absent, fun _ => false⟩

/-- A store whose salt record exists but fails to read (I/O error). -/
def fsSaltIoErr : FileSys :=
  ⟨fun p => if p = saltFile then .ioError "read id/salt-key: input/output error"
            else .absent, fun _ => false⟩

/-- A store with salt "abc" whose hwid record cannot be written. -/
def fsROBaseline : FileSys :=
  ⟨fun p => if p = saltFile then .content "abc" else .absent,
   fun p => p == hwidFile⟩

/-- The all-empty hardware snapshot. -/
def d0 : HardwareData := ⟨.nil, .nil, .nil, .nil, .nil⟩

/-- A facts service answering every endpoint with the empty JSON object. -/
def netOk : Network := ⟨fun _ => .body (.ok (.obj .nil))⟩

/-- A facts service refusing every connection. -/
def netFail : Network := ⟨fun _ => .netError "connection refused"⟩

/-- A facts service whose lspci body is not JSON; the rest succeed. -/
def netLspciBad : Network :=
  ⟨fun url => if url = urlFor "iofog" "lspci"
              then .body (.error "invalid character")
              else .body (.ok (.obj .nil))⟩

/-- A working random source. -/
def r0 : RandSource := ⟨.ok "XYZ"⟩

/-- A failing random source. -/
def r1 : RandSource := ⟨.error "entropy exhausted"⟩

/-- A fully cooperative world: responsive facts service, working entropy,
readable token record, deprovision answered 200. -/
def wOk : World := ⟨netOk, r0, .content " tok \n", fun _ => .ok 200⟩

/-- A world whose facts service is down. -/
def wFail : World := ⟨netFail, r0, .content "tok", fun _ => .ok 200⟩

/-- Recognizer for deprovision attempts among the events of a cycle. -/
def isDeprovisionEvent : Event → Bool
  | .deprovisionCall _ => true
  | _ => false


/-- The endpoints slice of the source, in iteration order. -/
def endpoints : List String := ["lscpu", "lspci", "lsusb", "lshw", "proc/cpuinfo"]


/-- The digest of salt "abc" over the all-empty snapshot (checked against
SHA-256 below). -/
def h1 : String :=
  "c4776e91e07375c43297c95f85978f486f41d03498a91cf12d30ff4271b36030"

example : fingerprintSpec (trimSpace "abc") d0 = h1 := by decide

/-- A store holding salt "abc" and baseline `h1`; writes reliable. -/
def fsBaselined : FileSys :=
  ⟨fun p => if p = saltFile then .content "abc"
            else if p = hwidFile then .content h1 else .absent,
   fun _ => false⟩

/-- The monitoring-phase state: baseline `h1` in memory over `fsBaselined`. -/
def stMon : LoopState := ⟨h1, fsBaselined⟩


/-! ## Helper lemmas -/

/-- With a readable salt record, the hash is the salted digest of the spec
and the filesystem is left untouched. -/
theorem calculateSaltedHash_of_salt (fs : FileSys) (r : RandSource)
    (d : HardwareData) (s : String) (h : fs.read saltFile = .content s) :
    calculateSaltedHash fs r d = .ok (fingerprintSpec (trimSpace s) d, fs) := by
  simp [calculateSaltedHash, loadFromFile, h, fingerprintSpec]

/-- A SHA-256 digest is 32 bytes. -/
theorem sha256_length (msg : List Nat) : (sha256 msg).length = 32 := by
  simp [sha256, wordBytes]

/-- Hex encoding doubles the length (list level). -/
theorem toHexList_length (bs : List Nat) :
    (bs.foldr (fun b acc => hexDigit (b / 16 % 16) :: hexDigit (b % 16) :: acc)
      []).length = 2 * bs.length := by
  induction bs with
  | nil => rfl
  | cons b tl ih =>
      rw [List.foldr_cons, List.length_cons, List.length_cons, ih,
        List.length_cons]
      omega

/-- Hex encoding doubles the length. -/
theorem toHex_length (bs : List Nat) : (toHex bs).length = 2 * bs.length :=
  toHexList_length bs

/-- A fingerprint is 64 characters long. -/
theorem fingerprintSpec_length (s : String) (d : HardwareData) :
    (fingerprintSpec s d).length = 64 := by
  simp [fingerprintSpec, toHex_length, sha256_length]

/-- A fingerprint never equals a string of another length. -/
theorem fingerprintSpec_ne (s : String) (d : HardwareData) (t : String)
    (h : t.length ≠ 64) : fingerprintSpec s d ≠ t := by
  intro he
  exact h (he ▸ fingerprintSpec_length s d)

/-- The sixteen lowercase hex digits. -/
def hexChars : List Char := "0123456789abcdef".data

/-- Every character hex encoding emits is a lowercase hex digit. -/
theorem toHex_mem_hexChars (bs : List Nat) :
    ∀ c ∈ (toHex bs).data, c ∈ hexChars := by
  have hd : ∀ m < 16, hexDigit m ∈ hexChars := by decide
  induction bs with
  | nil => intro c hc; exact absurd hc (List.not_mem_nil c)
  | cons b tl ih =>
      intro c hc
      rw [show (toHex (b :: tl)).data = hexDigit (b / 16 % 16) ::
            hexDigit (b % 16) :: (toHex tl).data from rfl,
          List.mem_cons, List.mem_cons] at hc
      rcases hc with h | h | h
      · exact h ▸ hd _ (Nat.mod_lt _ (by decide))
      · exact h ▸ hd _ (Nat.mod_lt _ (by decide))
      · exact ih c h

/-! ## C3 — fingerprint function -/

/-- Claim C3. For every (salt, snapshot) pair, the fingerprint is the
lowercase-hex SHA-256 of the salt bytes followed by the canonical snapshot
serialization (the five categories in fixed order inside `jsonMarshal`), the
store is untouched, repeated invocation is independent of the random source
and returns the identical digest, and the digest is 64 lowercase hex
characters. -/
theorem fingerprint_salted_sha256_deterministic (fs : FileSys)
    (r r' : RandSource) (d : HardwareData) (s : String)
    (hsalt : fs.read saltFile = .content s) :
    calculateSaltedHash fs r d = .ok (fingerprintSpec (trimSpace s) d, fs) ∧
    calculateSaltedHash fs r' d = calculateSaltedHash fs r d ∧
    (fingerprintSpec (trimSpace s) d).length = 64 ∧
    (∀ c ∈ (fingerprintSpec (trimSpace s) d).data, c ∈ hexChars) := by
  refine ⟨calculateSaltedHash_of_salt fs r d s hsalt, ?_,
    fingerprintSpec_length _ _, ?_⟩
  · rw [calculateSaltedHash_of_salt fs r d s hsalt,
      calculateSaltedHash_of_salt fs r' d s hsalt]
  · exact toHex_mem_hexChars _

/-- C3 witness: the theorem applied to the concrete salted store. -/
theorem fingerprint_salted_sha256_deterministic_witness :
    fsSalted.read saltFile = .content "abc" ∧
    (calculateSaltedHash fsSalted r0 d0
        = .ok (fingerprintSpec (trimSpace "abc") d0, fsSalted) ∧
     calculateSaltedHash fsSalted r1 d0 = calculateSaltedHash fsSalted r0 d0 ∧
     (fingerprintSpec (trimSpace "abc") d0).length = 64 ∧
     (∀ c ∈ (fingerprintSpec (trimSpace "abc") d0).data, c ∈ hexChars)) :=
  ⟨rfl, fingerprint_salted_sha256_deterministic fsSalted r0 r1 d0 "abc" rfl⟩

/-! ## C6 — the salt is never regenerated or overwritten -/

/-- One cycle never changes a readable salt record. -/
theorem cycle_preserves_salt (p : Nat) (hal : String) (w : World)
    (st : LoopState) (s : String) (hsalt : st.fs.read saltFile = .content s) :
    (cycle p hal w st).state.fs.read saltFile = .content s := by
  unfold cycle
  cases hc : collectHardwareData w.net hal with
  | error e => exact hsalt
  | ok hd =>
    dsimp only
    rw [calculateSaltedHash_of_salt st.fs w.rand hd s hsalt]
    dsimp only
    by_cases hb : st.initialHdID = ""
    · rw [if_pos hb]
      cases hs : saveToFile st.fs hwidFile (fingerprintSpec (trimSpace s) hd) with
      | error e => exact hsalt
      | ok fs2 =>
        have h2 : fs2 = fsWrite st.fs hwidFile (fingerprintSpec (trimSpace s) hd) := by
          unfold saveToFile at hs
          by_cases hw : st.fs.writeFails hwidFile = true
          · rw [if_pos hw] at hs; exact absurd hs (by simp)
          · rw [if_neg hw] at hs
            exact (Except.ok.inj hs).symm
        subst h2
        show (fsWrite st.fs hwidFile _).read saltFile = _
        unfold fsWrite
        dsimp only
        rw [if_neg (by decide : ¬(saltFile = hwidFile))]
        exact hsalt
    · rw [if_neg hb]
      by_cases hne : fingerprintSpec (trimSpace s) hd ≠ st.initialHdID
      · rw [if_pos hne]
        cases loadAuthToken w.tokenFile with
        | error e => dsimp only; exact hsalt
        | ok tok =>
          dsimp only
          cases deprovisionDevice (w.deprovisionResp tok) with
          | error e => dsimp only; exact hsalt
          | ok u => dsimp only; exact hsalt
      · rw [if_neg hne]; exact hsalt

/-- Claim C6, amended.  As long as the written salt record remains readable,
no run of the monitoring loop ever changes it, and every subsequent
fingerprint computation against the resulting store uses exactly the
originally persisted (trimmed) salt.  (Unconditionally the claim is false:
when a read of the written record fails with an I/O error, the code treats
the error as absence and regenerates and overwrites the salt — see the
counterexample below.) -/
theorem salt_never_regenerated (p : Nat) (hal : String) (ws : Nat → World)
    (b : String) (fs : FileSys) (s : String)
    (hsalt : fs.read saltFile = .content s) (n : Nat) :
    (runAux p hal ws ⟨b, fs⟩ n).1.fs.read saltFile = .content s ∧
    ∀ r d, calculateSaltedHash (runAux p hal ws ⟨b, fs⟩ n).1.fs r d
        = .ok (fingerprintSpec (trimSpace s) d, (runAux p hal ws ⟨b, fs⟩ n).1.fs) := by
  have key : ∀ m, (runAux p hal ws ⟨b, fs⟩ m).1.fs.read saltFile = .content s := by
    intro m
    induction m with
    | zero => exact hsalt
    | succ k ih =>
      show (let pr := runAux p hal ws ⟨b, fs⟩ k
            if pr.2 then pr
            else
              let c := cycle p hal (ws k) pr.1
              (c.state, c.exits)).1.fs.read saltFile = _
      by_cases h2 : (runAux p hal ws ⟨b, fs⟩ k).2 = true
      · simp only [h2, if_true]; exact ih
      · rw [Bool.not_eq_true] at h2
        simp only [h2, Bool.false_eq_true, if_false]
        exact cycle_preserves_salt p hal (ws k) _ s ih
  exact ⟨key n, fun r d => calculateSaltedHash_of_salt _ r d s (key n)⟩

/-- C6 counterexample: the unconditional claim is false.  At a store whose
written salt record fails to read (an I/O error, not absence), one
fingerprint computation regenerates a fresh salt and overwrites the record:
the call succeeds, the store afterwards reads back the new salt "XYZ" from
the random source, and the digest is computed from "XYZ" — it differs from
the digest the persisted salt "abc" would give, so subsequent comparisons
against the historical baseline are invalidated. -/
theorem salt_overwritten_on_read_failure_cex :
    calculateSaltedHash fsSaltIoErr r0 d0
        = .ok (fingerprintSpec "XYZ" d0, fsWrite fsSaltIoErr saltFile "XYZ") ∧
    (fsWrite fsSaltIoErr saltFile "XYZ").read saltFile = .content "XYZ" ∧
    fingerprintSpec "XYZ" d0 ≠ fingerprintSpec (trimSpace "abc") d0 :=
  ⟨rfl, rfl, by decide⟩

/-- C6 witness: the theorem at a concrete store, after one cycle against a
world whose collection fails. -/
theorem salt_never_regenerated_witness :
    fsSalted.read saltFile = .content "abc" ∧
    ((runAux 60 "iofog" (fun _ => wFail) ⟨"", fsSalted⟩ 1).1.fs.read saltFile
        = .content "abc" ∧
     ∀ r d, calculateSaltedHash
          (runAux 60 "iofog" (fun _ => wFail) ⟨"", fsSalted⟩ 1).1.fs r d
        = .ok (fingerprintSpec (trimSpace "abc") d,
            (runAux 60 "iofog" (fun _ => wFail) ⟨"", fsSalted⟩ 1).1.fs)) :=
  ⟨rfl, salt_never_regenerated 60 "iofog" (fun _ => wFail) "" fsSalted "abc" rfl 1⟩

/-! ## C2 — first-run baseline establishment -/

/-- A missing record surfaces as the ReadFile not-exist error. -/
theorem loadFromFile_absent (fs : FileSys) (f : String)
    (h : fs.read f = .absent) :
    loadFromFile fs f = .error ("open " ++ f ++ ": no such file or directory") := by
  unfold loadFromFile
  rw [h]

/-- When the salt record cannot be read, a fresh salt is generated, persisted
and used for the digest. -/
theorem calculateSaltedHash_generates (fs : FileSys) (r : RandSource)
    (d : HardwareData) (e s : String)
    (hload : loadFromFile fs saltFile = .error e)
    (hrand : r.outcome = .ok s)
    (hwr : fs.writeFails saltFile = false) :
    calculateSaltedHash fs r d = .ok (fingerprintSpec s d, fsWrite fs saltFile s) := by
  unfold calculateSaltedHash generateSalt saveToFile
  rw [hload, hrand, hwr]
  simp [fingerprintSpec]

/-- Claim C2. Starting from an empty identity store, one cycle whose collection
and salt generation succeed sets the in-memory baseline to the computed
fingerprint, persists it in the hwid record, emits no comparison, no
deprovision call and no sleep, and does not exit. -/
theorem first_cycle_establishes_baseline (p : Nat) (hal : String) (w : World)
    (fs : FileSys) (s : String) (hd : HardwareData)
    (hhw : fs.read hwidFile = .absent)
    (hsalt : fs.read saltFile = .absent)
    (hrand : w.rand.outcome = .ok s)
    (hwr : ∀ f, fs.writeFails f = false)
    (hc : collectHardwareData w.net hal = .ok hd) :
    (cycle p hal w (initMain fs)).state.initialHdID = fingerprintSpec s hd ∧
    (cycle p hal w (initMain fs)).state.fs.read hwidFile
        = .content (fingerprintSpec s hd) ∧
    (cycle p hal w (initMain fs)).events = [] ∧
    (cycle p hal w (initMain fs)).exits = false := by
  have hinit : initMain fs = ⟨"", fs⟩ := by
    unfold initMain
    rw [loadFromFile_absent fs hwidFile hhw]
  have hhash : calculateSaltedHash fs w.rand hd
      = .ok (fingerprintSpec s hd, fsWrite fs saltFile s) :=
    calculateSaltedHash_generates fs w.rand hd _ s
      (loadFromFile_absent fs saltFile hsalt) hrand (hwr saltFile)
  have heq : cycle p hal w (initMain fs)
      = ⟨⟨fingerprintSpec s hd,
          fsWrite (fsWrite fs saltFile s) hwidFile (fingerprintSpec s hd)⟩,
         [], false⟩ := by
    rw [hinit]
    unfold cycle
    rw [hc]; dsimp only
    rw [hhash]; dsimp only
    rw [if_pos rfl]
    unfold saveToFile fsWrite
    rw [hwr hwidFile]
    rfl
  refine ⟨by rw [heq], ?_, by rw [heq], by rw [heq]⟩
  rw [heq]
  show (fsWrite (fsWrite fs saltFile s) hwidFile _).read hwidFile = _
  simp [fsWrite]

/-- C2 witness: the theorem at the empty store against the cooperative
world. -/
theorem first_cycle_establishes_baseline_witness :
    fsEmpty.read hwidFile = .absent ∧
    fsEmpty.read saltFile = .absent ∧
    wOk.rand.outcome = .ok "XYZ" ∧
    (∀ f, fsEmpty.writeFails f = false) ∧
    collectHardwareData wOk.net "iofog" = .ok d0 ∧
    ((cycle 60 "iofog" wOk (initMain fsEmpty)).state.initialHdID
        = fingerprintSpec "XYZ" d0 ∧
     (cycle 60 "iofog" wOk (initMain fsEmpty)).state.fs.read hwidFile
        = .content (fingerprintSpec "XYZ" d0) ∧
     (cycle 60 "iofog" wOk (initMain fsEmpty)).events = [] ∧
     (cycle 60 "iofog" wOk (initMain fsEmpty)).exits = false) :=
  ⟨rfl, rfl, rfl, fun _ => rfl, rfl,
   first_cycle_establishes_baseline 60 "iofog" wOk fsEmpty "XYZ" d0
     rfl rfl rfl (fun _ => rfl) rfl⟩

/-! ## C10 — baseline persistence failure is only logged -/

/-- Claim C10. If the hwid record cannot be written on the first successful
cycle, the cycle is not aborted: the in-memory baseline is still set to the
computed fingerprint, the filesystem is left exactly as the hash step left
it (the baseline never reaches durable storage), no events are emitted and
the loop continues. -/
theorem baseline_save_failure_nonfatal (p : Nat) (hal : String) (w : World)
    (st : LoopState) (hd : HardwareData) (hw : String) (fs1 : FileSys)
    (hb : st.initialHdID = "")
    (hc : collectHardwareData w.net hal = .ok hd)
    (hh : calculateSaltedHash st.fs w.rand hd = .ok (hw, fs1))
    (hwf : fs1.writeFails hwidFile = true) :
    cycle p hal w st = ⟨⟨hw, fs1⟩, [], false⟩ := by
  unfold cycle
  rw [hc]; dsimp only
  rw [hh]; dsimp only
  rw [if_pos hb]
  unfold saveToFile
  rw [hwf]
  rfl

/-- C10 witness: a store whose hwid record is read-only. -/
theorem baseline_save_failure_nonfatal_witness :
    (LoopState.mk "" fsROBaseline).initialHdID = "" ∧
    collectHardwareData wOk.net "iofog" = .ok d0 ∧
    calculateSaltedHash fsROBaseline wOk.rand d0
        = .ok (fingerprintSpec (trimSpace "abc") d0, fsROBaseline) ∧
    fsROBaseline.writeFails hwidFile = true ∧
    cycle 60 "iofog" wOk ⟨"", fsROBaseline⟩
        = ⟨⟨fingerprintSpec (trimSpace "abc") d0, fsROBaseline⟩, [], false⟩ :=
  ⟨rfl, rfl, calculateSaltedHash_of_salt fsROBaseline wOk.rand d0 "abc" rfl, rfl,
   baseline_save_failure_nonfatal 60 "iofog" wOk ⟨"", fsROBaseline⟩ d0
     (fingerprintSpec (trimSpace "abc") d0) fsROBaseline rfl rfl
     (calculateSaltedHash_of_salt fsROBaseline wOk.rand d0 "abc" rfl) rfl⟩

/-! ## C1 — drift invokes exactly one deprovision attempt -/

/-- Claim C1. With a baseline present, when the computed fingerprint differs
from it and the token record is readable, the cycle performs exactly one
deprovision attempt, and the token it carries is the trimmed content the
local token record has during this very cycle. -/
theorem drift_invokes_one_deprovision (p : Nat) (hal : String) (w : World)
    (st : LoopState) (hd : HardwareData) (hw : String) (fs1 : FileSys)
    (raw : String)
    (hb : st.initialHdID ≠ "")
    (hc : collectHardwareData w.net hal = .ok hd)
    (hh : calculateSaltedHash st.fs w.rand hd = .ok (hw, fs1))
    (hne : hw ≠ st.initialHdID)
    (ht : w.tokenFile = .content raw) :
    (cycle p hal w st).events.filter isDeprovisionEvent
      = [Event.deprovisionCall (trimSpace raw)] := by
  unfold cycle
  rw [hc]; dsimp only
  rw [hh]; dsimp only
  rw [if_neg hb, if_pos hne]
  unfold loadAuthToken
  rw [ht]; dsimp only
  cases deprovisionDevice (w.deprovisionResp (trimSpace raw)) with
  | error e => simp [List.filter, isDeprovisionEvent]
  | ok u => simp [List.filter, isDeprovisionEvent]

/-- C1 witness: a drifted cycle against the cooperative world; the baseline
"x" cannot equal the 64-character fingerprint. -/
theorem drift_invokes_one_deprovision_witness :
    (LoopState.mk "x" fsSalted).initialHdID ≠ "" ∧
    collectHardwareData wOk.net "iofog" = .ok d0 ∧
    calculateSaltedHash fsSalted wOk.rand d0
        = .ok (fingerprintSpec (trimSpace "abc") d0, fsSalted) ∧
    fingerprintSpec (trimSpace "abc") d0 ≠ "x" ∧
    wOk.tokenFile = .content " tok \n" ∧
    (cycle 60 "iofog" wOk ⟨"x", fsSalted⟩).events.filter isDeprovisionEvent
      = [Event.deprovisionCall (trimSpace " tok \n")] :=
  ⟨by decide, rfl, calculateSaltedHash_of_salt fsSalted wOk.rand d0 "abc" rfl,
   fingerprintSpec_ne _ _ _ (by decide), rfl,
   drift_invokes_one_deprovision 60 "iofog" wOk ⟨"x", fsSalted⟩ d0
     (fingerprintSpec (trimSpace "abc") d0) fsSalted " tok \n"
     (by decide) rfl
     (calculateSaltedHash_of_salt fsSalted wOk.rand d0 "abc" rfl)
     (fingerprintSpec_ne _ _ _ (by decide)) rfl⟩

/-! ## C4 — the loop exits only on deprovision success -/

/-- A cycle breaks the loop exactly when it carried a deprovision attempt
whose call came back successful (HTTP 200). -/
theorem cycle_exits_iff (p : Nat) (hal : String) (w : World) (st : LoopState) :
    (cycle p hal w st).exits = true ↔
    ∃ tok, Event.deprovisionCall tok ∈ (cycle p hal w st).events ∧
      deprovisionDevice (w.deprovisionResp tok) = .ok () := by
  unfold cycle
  cases hc : collectHardwareData w.net hal with
  | error e => simp
  | ok hd =>
    dsimp only
    cases hh : calculateSaltedHash st.fs w.rand hd with
    | error e => simp
    | ok pr =>
      obtain ⟨hw, fs1⟩ := pr
      dsimp only
      by_cases hb : st.initialHdID = ""
      · rw [if_pos hb]
        cases saveToFile fs1 hwidFile hw <;> simp
      · rw [if_neg hb]
        by_cases hne : hw ≠ st.initialHdID
        · rw [if_pos hne]
          cases loadAuthToken w.tokenFile with
          | error e => simp
          | ok tok =>
            dsimp only
            cases hdep : deprovisionDevice (w.deprovisionResp tok) with
            | error e => simp [hdep]
            | ok u => cases u; simp [hdep]
        · rw [if_neg hne]; simp

/-- Claim C4. The loop never terminates except through a cycle that performed a
deprovision attempt answered successfully: whenever a run of `n` cycles has
exited, some earlier cycle `k` carried a deprovision call whose response was
success; every error path re-enters the loop. -/
theorem exit_only_after_deprovision_success (p : Nat) (hal : String)
    (ws : Nat → World) (st : LoopState) (n : Nat)
    (hex : (runAux p hal ws st n).2 = true) :
    ∃ k, k < n ∧ ∃ tok,
      Event.deprovisionCall tok
          ∈ (cycle p hal (ws k) (runAux p hal ws st k).1).events ∧
      deprovisionDevice ((ws k).deprovisionResp tok) = .ok () := by
  induction n with
  | zero => exact absurd hex (by simp [runAux])
  | succ m ih =>
    by_cases h2 : (runAux p hal ws st m).2 = true
    · obtain ⟨k, hk, tok, hmem, hok⟩ := ih h2
      exact ⟨k, Nat.lt_succ_of_lt hk, tok, hmem, hok⟩
    · rw [Bool.not_eq_true] at h2
      simp only [runAux, h2, Bool.false_eq_true, if_false] at hex
      obtain ⟨tok, hmem, hok⟩ := (cycle_exits_iff p hal (ws m) _).1 hex
      exact ⟨m, Nat.lt_succ_self m, tok, hmem, hok⟩

/-- C4 witness: one concrete drifted run that exits after its first cycle. -/
theorem exit_only_after_deprovision_success_witness :
    (runAux 60 "iofog" (fun _ => wOk) ⟨"x", fsSalted⟩ 1).2 = true ∧
    ∃ k, k < 1 ∧ ∃ tok,
      Event.deprovisionCall tok
          ∈ (cycle 60 "iofog" ((fun _ => wOk) k)
              (runAux 60 "iofog" (fun _ => wOk) ⟨"x", fsSalted⟩ k).1).events ∧
      deprovisionDevice (((fun _ => wOk) k).deprovisionResp tok) = .ok () :=
  ⟨by decide,
   exit_only_after_deprovision_success 60 "iofog" (fun _ => wOk)
     ⟨"x", fsSalted⟩ 1 (by decide)⟩

/-! ## C5 — error cycles do NOT sleep (corrected) -/

/-- C5 counterexample: a cycle that fails collection produces no events at
all — in particular it does not sleep for the period before re-entering the
loop — while the successful "unchanged" cycle from the same state does sleep
for the period.  The claim that an error cycle waits the same normal sleep
interval is therefore false. -/
theorem error_cycle_skips_sleep_cex :
    (cycle 60 "iofog" wFail stMon).events = [] ∧
    Event.sleep 60 ∉ (cycle 60 "iofog" wFail stMon).events ∧
    Event.sleep 60 ∈ (cycle 60 "iofog" wOk stMon).events := by
  decide

/-- Claim C5, amended. A cycle sleeps (for the configured period) if and only if
it completed collection and hashing with a baseline present and found the
fingerprint unchanged; every other outcome — every error path, the
baseline-establishing cycle, and the drift path — re-enters the loop
immediately without sleeping. -/
theorem sleep_only_after_unchanged (p : Nat) (hal : String) (w : World)
    (st : LoopState) :
    Event.sleep p ∈ (cycle p hal w st).events ↔
    ∃ hd hw fs1, collectHardwareData w.net hal = .ok hd ∧
      calculateSaltedHash st.fs w.rand hd = .ok (hw, fs1) ∧
      st.initialHdID ≠ "" ∧ hw = st.initialHdID := by
  constructor
  · intro hmem
    unfold cycle at hmem
    cases hc : collectHardwareData w.net hal with
    | error e => rw [hc] at hmem; dsimp only at hmem; simp at hmem
    | ok hd =>
      rw [hc] at hmem; dsimp only at hmem
      cases hh : calculateSaltedHash st.fs w.rand hd with
      | error e => rw [hh] at hmem; dsimp only at hmem; simp at hmem
      | ok pr =>
        obtain ⟨hw, fs1⟩ := pr
        rw [hh] at hmem; dsimp only at hmem
        by_cases hb : st.initialHdID = ""
        · rw [if_pos hb] at hmem
          rcases hsv : saveToFile fs1 hwidFile hw with e | fs2 <;>
            rw [hsv] at hmem <;> simp at hmem
        · rw [if_neg hb] at hmem
          by_cases hne : hw ≠ st.initialHdID
          · rw [if_pos hne] at hmem
            exfalso
            rcases hla : loadAuthToken w.tokenFile with e | tok
            · rw [hla] at hmem; simp at hmem
            · rw [hla] at hmem
              dsimp only at hmem
              rcases hdp : deprovisionDevice (w.deprovisionResp tok) with e | u <;>
                rw [hdp] at hmem <;> simp at hmem
          · rw [if_neg hne] at hmem
            exact ⟨hd, hw, fs1, rfl, hh, hb, not_ne_iff.mp hne⟩
  · rintro ⟨hd, hw, fs1, hc, hh, hb, heq⟩
    unfold cycle
    rw [hc]; dsimp only
    rw [hh]; dsimp only
    rw [if_neg hb, if_neg (not_not_intro heq)]
    simp

/-! ## C7 — "absent" is an error, not a distinct result (corrected) -/

/-- C7 counterexample: a read that finds no record returns an error (the Go
ReadFile not-exist error), never a distinct "absent" value, and a salt-record
I/O failure does not abort the cycle — the caller regenerates and persists a
fresh salt exactly as it does on absence, so the two are indistinguishable. -/
theorem absent_read_is_error_cex :
    loadFromFile fsEmpty saltFile
        = .error "open id/salt-key: no such file or directory" ∧
    (∀ s, loadFromFile fsEmpty saltFile ≠ .ok s) ∧
    loadFromFile fsSaltIoErr saltFile
        = .error "read id/salt-key: input/output error" ∧
    calculateSaltedHash fsSaltIoErr r0 d0
        = .ok (fingerprintSpec "XYZ" d0, fsWrite fsSaltIoErr saltFile "XYZ") ∧
    calculateSaltedHash fsEmpty r0 d0
        = .ok (fingerprintSpec "XYZ" d0, fsWrite fsEmpty saltFile "XYZ") :=
  ⟨rfl, fun _ h => Except.noConfusion h, rfl, rfl, rfl⟩

/-- Claim C7, amended. Identity-store reads surface a missing record as an
error; callers treat every read error — missing record or I/O failure —
as absence: any salt-read error leads to generation and persistence of a
fresh salt (the cycle is not aborted), and any hwid-read error at startup
leaves the baseline unset. -/
theorem read_errors_treated_as_absence (fs : FileSys) (r : RandSource)
    (d : HardwareData) (e s : String)
    (hload : loadFromFile fs saltFile = .error e)
    (hrand : r.outcome = .ok s)
    (hwr : fs.writeFails saltFile = false) :
    calculateSaltedHash fs r d
        = .ok (fingerprintSpec s d, fsWrite fs saltFile s) ∧
    (∀ fs' e', loadFromFile fs' hwidFile = .error e' →
        (initMain fs').initialHdID = "") ∧
    (∀ fs'' f, fs''.read f = .absent → ∃ msg, loadFromFile fs'' f = .error msg) := by
  refine ⟨calculateSaltedHash_generates fs r d e s hload hrand hwr, ?_, ?_⟩
  · intro fs' e' h
    unfold initMain
    rw [h]
  · intro fs'' f h
    exact ⟨_, loadFromFile_absent fs'' f h⟩

/-- C7 witness: the amended theorem at the store whose salt read fails with
an I/O error. -/
theorem read_errors_treated_as_absence_witness :
    loadFromFile fsSaltIoErr saltFile
        = .error "read id/salt-key: input/output error" ∧
    r0.outcome = .ok "XYZ" ∧
    fsSaltIoErr.writeFails saltFile = false ∧
    (calculateSaltedHash fsSaltIoErr r0 d0
        = .ok (fingerprintSpec "XYZ" d0, fsWrite fsSaltIoErr saltFile "XYZ") ∧
     (∀ fs' e', loadFromFile fs' hwidFile = .error e' →
        (initMain fs').initialHdID = "") ∧
     (∀ fs'' f, fs''.read f = .absent →
        ∃ msg, loadFromFile fs'' f = .error msg)) :=
  ⟨rfl, rfl, rfl,
   read_errors_treated_as_absence fsSaltIoErr r0 d0
     "read id/salt-key: input/output error" "XYZ" rfl rfl rfl⟩

/-! ## C8 — collection is all-or-nothing -/

/-- Bind on a successful Except is application. -/
theorem exceptBind_ok {α β ε : Type} (a : α) (f : α → Except ε β) :
    (Except.ok a >>= f) = f a := rfl

/-- Bind on a failed Except short-circuits. -/
theorem exceptBind_error {α β ε : Type} (e : ε) (f : α → Except ε β) :
    ((Except.error e : Except ε α) >>= f) = Except.error e := rfl

/-- Every fetch error message embeds the failing URL and the cause. -/
theorem fetchEndpoint_error_shape (net : Network) (url msg : String)
    (h : fetchEndpoint net url = .error msg) :
    ∃ cause,
      msg = "failed to fetch " ++ url ++ ": " ++ cause ∨
      msg = "failed to read response from " ++ url ++ ": " ++ cause ∨
      msg = "failed to parse JSON from " ++ url ++ ": " ++ cause := by
  unfold fetchEndpoint at h
  cases hg : net.get url with
  | netError e =>
      rw [hg] at h
      exact ⟨e, Or.inl (Except.error.inj h).symm⟩
  | readError e =>
      rw [hg] at h
      exact ⟨e, Or.inr (Or.inl (Except.error.inj h).symm)⟩
  | body p =>
    cases p with
    | error e =>
        rw [hg] at h
        exact ⟨e, Or.inr (Or.inr (Except.error.inj h).symm)⟩
    | ok j =>
        rw [hg] at h
        exact absurd h (by simp)

/-- Claim C8. If fetching or parsing any of the five categories fails, the
whole collection returns the error of the first failing category — a message
embedding the URL of that category and the cause — and no snapshot (in
particular no partial snapshot) is returned. -/
theorem collection_all_or_nothing (net : Network) (hal : String)
    (h : ∃ ep ∈ endpoints, ∃ e, fetchEndpoint net (urlFor hal ep) = .error e) :
    ∃ ep ∈ endpoints, ∃ msg,
      collectHardwareData net hal = .error msg ∧
      fetchEndpoint net (urlFor hal ep) = .error msg ∧
      (∃ cause,
        msg = "failed to fetch " ++ urlFor hal ep ++ ": " ++ cause ∨
        msg = "failed to read response from " ++ urlFor hal ep ++ ": " ++ cause ∨
        msg = "failed to parse JSON from " ++ urlFor hal ep ++ ": " ++ cause) ∧
      (∀ d, collectHardwareData net hal ≠ .ok d) := by
  rcases h1 : fetchEndpoint net (urlFor hal "lscpu") with e1 | j1
  · have hcol : collectHardwareData net hal = .error e1 := by
      unfold collectHardwareData
      rw [h1]; rfl
    exact ⟨"lscpu", by decide, e1, hcol, h1,
      fetchEndpoint_error_shape net _ e1 h1, fun d => by rw [hcol]; simp⟩
  · rcases h2 : fetchEndpoint net (urlFor hal "lspci") with e2 | j2
    · have hcol : collectHardwareData net hal = .error e2 := by
        unfold collectHardwareData
        rw [h1]
        show fetchEndpoint net (urlFor hal "lspci") >>= _ = _
        rw [h2]; rfl
      exact ⟨"lspci", by decide, e2, hcol, h2,
        fetchEndpoint_error_shape net _ e2 h2, fun d => by rw [hcol]; simp⟩
    · rcases h3 : fetchEndpoint net (urlFor hal "lsusb") with e3 | j3
      · have hcol : collectHardwareData net hal = .error e3 := by
          unfold collectHardwareData
          rw [h1]
          show fetchEndpoint net (urlFor hal "lspci") >>= _ = _
          rw [h2]
          show fetchEndpoint net (urlFor hal "lsusb") >>= _ = _
          rw [h3]; rfl
        exact ⟨"lsusb", by decide, e3, hcol, h3,
          fetchEndpoint_error_shape net _ e3 h3, fun d => by rw [hcol]; simp⟩
      · rcases h4 : fetchEndpoint net (urlFor hal "lshw") with e4 | j4
        · have hcol : collectHardwareData net hal = .error e4 := by
            unfold collectHardwareData
            rw [h1]
            show fetchEndpoint net (urlFor hal "lspci") >>= _ = _
            rw [h2]
            show fetchEndpoint net (urlFor hal "lsusb") >>= _ = _
            rw [h3]
            show fetchEndpoint net (urlFor hal "lshw") >>= _ = _
            rw [h4]; rfl
          exact ⟨"lshw", by decide, e4, hcol, h4,
            fetchEndpoint_error_shape net _ e4 h4, fun d => by rw [hcol]; simp⟩
        · rcases h5 : fetchEndpoint net (urlFor hal "proc/cpuinfo") with e5 | j5
          · have hcol : collectHardwareData net hal = .error e5 := by
              unfold collectHardwareData
              rw [h1]
              show fetchEndpoint net (urlFor hal "lspci") >>= _ = _
              rw [h2]
              show fetchEndpoint net (urlFor hal "lsusb") >>= _ = _
              rw [h3]
              show fetchEndpoint net (urlFor hal "lshw") >>= _ = _
              rw [h4]
              show fetchEndpoint net (urlFor hal "proc/cpuinfo") >>= _ = _
              rw [h5]; rfl
            exact ⟨"proc/cpuinfo", by decide, e5, hcol, h5,
              fetchEndpoint_error_shape net _ e5 h5, fun d => by rw [hcol]; simp⟩
          · exfalso
            obtain ⟨ep, hmem, e, he⟩ := h
            have : ep = "lscpu" ∨ ep = "lspci" ∨ ep = "lsusb" ∨ ep = "lshw" ∨
                ep = "proc/cpuinfo" := by
              simpa [endpoints] using hmem
            rcases this with rfl | rfl | rfl | rfl | rfl
            · rw [h1] at he; exact Except.noConfusion he
            · rw [h2] at he; exact Except.noConfusion he
            · rw [h3] at he; exact Except.noConfusion he
            · rw [h4] at he; exact Except.noConfusion he
            · rw [h5] at he; exact Except.noConfusion he

/-- C8 witness: a facts service whose lspci body is unparsable. -/
theorem collection_all_or_nothing_witness :
    (∃ ep ∈ endpoints, ∃ e,
      fetchEndpoint netLspciBad (urlFor "iofog" ep) = .error e) ∧
    (∃ ep ∈ endpoints, ∃ msg,
      collectHardwareData netLspciBad "iofog" = .error msg ∧
      fetchEndpoint netLspciBad (urlFor "iofog" ep) = .error msg ∧
      (∃ cause,
        msg = "failed to fetch " ++ urlFor "iofog" ep ++ ": " ++ cause ∨
        msg = "failed to read response from " ++ urlFor "iofog" ep ++ ": " ++ cause ∨
        msg = "failed to parse JSON from " ++ urlFor "iofog" ep ++ ": " ++ cause) ∧
      (∀ d, collectHardwareData netLspciBad "iofog" ≠ .ok d)) :=
  ⟨⟨"lspci", by decide, "failed to parse JSON from " ++ urlFor "iofog" "lspci"
      ++ ": invalid character", by rfl⟩,
   collection_all_or_nothing netLspciBad "iofog"
     ⟨"lspci", by decide, "failed to parse JSON from " ++ urlFor "iofog" "lspci"
        ++ ": invalid character", by rfl⟩⟩

/-! ## C9 — category responses normalized to objects -/

/-- Claim C9. A parsed top-level object is stored verbatim as the data of the
category; any other JSON value is wrapped as an object mapping "data" to it;
and every snapshot collection returns is built category-by-category through
exactly this normalization, so every category is an object. -/
theorem category_values_normalized_to_objects (j : Json) (net : Network)
    (hal : String) (d : HardwareData) :
    (∀ kvs, j = .obj kvs → parseToMap j = kvs) ∧
    ((∀ kvs, j ≠ .obj kvs) → parseToMap j = .cons "data" j .nil) ∧
    (collectHardwareData net hal = .ok d →
      ∃ j1 j2 j3 j4 j5,
        fetchEndpoint net (urlFor hal "lscpu") = .ok j1 ∧
        fetchEndpoint net (urlFor hal "lspci") = .ok j2 ∧
        fetchEndpoint net (urlFor hal "lsusb") = .ok j3 ∧
        fetchEndpoint net (urlFor hal "lshw") = .ok j4 ∧
        fetchEndpoint net (urlFor hal "proc/cpuinfo") = .ok j5 ∧
        d = ⟨parseToMap j1, parseToMap j2, parseToMap j3, parseToMap j4,
             parseToMap j5⟩) := by
  refine ⟨?_, ?_, ?_⟩
  · intro kvs h
    subst h
    rfl
  · intro h
    cases j with
    | obj kvs => exact absurd rfl (h kvs)
    | null => rfl
    | bool b => rfl
    | num l => rfl
    | str s => rfl
    | arr xs => rfl
  · intro hcol
    unfold collectHardwareData at hcol
    rcases h1 : fetchEndpoint net (urlFor hal "lscpu") with e1 | j1
    · rw [h1, exceptBind_error] at hcol
      exact Except.noConfusion hcol
    rw [h1] at hcol
    simp only [exceptBind_ok] at hcol
    rcases h2 : fetchEndpoint net (urlFor hal "lspci") with e2 | j2
    · rw [h2, exceptBind_error] at hcol
      exact Except.noConfusion hcol
    rw [h2] at hcol
    simp only [exceptBind_ok] at hcol
    rcases h3 : fetchEndpoint net (urlFor hal "lsusb") with e3 | j3
    · rw [h3, exceptBind_error] at hcol
      exact Except.noConfusion hcol
    rw [h3] at hcol
    simp only [exceptBind_ok] at hcol
    rcases h4 : fetchEndpoint net (urlFor hal "lshw") with e4 | j4
    · rw [h4, exceptBind_error] at hcol
      exact Except.noConfusion hcol
    rw [h4] at hcol
    simp only [exceptBind_ok] at hcol
    rcases h5 : fetchEndpoint net (urlFor hal "proc/cpuinfo") with e5 | j5
    · rw [h5, exceptBind_error] at hcol
      exact Except.noConfusion hcol
    rw [h5] at hcol
    simp only [exceptBind_ok] at hcol
    exact ⟨j1, j2, j3, j4, j5, rfl, rfl, rfl, rfl, rfl, (Except.ok.inj hcol).symm⟩

/-- C9 witness: the theorem at an object value and a wrapped array value. -/
theorem category_values_normalized_to_objects_witness :
    parseToMap (Json.obj JsonObj.nil) = JsonObj.nil ∧
    parseToMap (Json.arr JsonList.nil)
        = JsonObj.cons "data" (Json.arr JsonList.nil) JsonObj.nil :=
  ⟨(category_values_normalized_to_objects (Json.obj JsonObj.nil) netOk "iofog"
      d0).1 JsonObj.nil rfl,
   (category_values_normalized_to_objects (Json.arr JsonList.nil) netOk "iofog"
      d0).2.1 (fun _ h => Json.noConfusion h)⟩

end EdgeGuard
